import Mathlib

/-!
Verification of the gofile-uploader upload orchestration engine.

The definitions below are a shallow embedding of the Python sources
`src/gofile_uploader/api.py` and `src/gofile_uploader/gofile_uploader.py`:
JSON response dictionaries become association lists from field names to
string values, file contents become lists of byte values, and the
`hashlib` digest object is modelled by the sequence of bytes it has
absorbed (its `update` method appends bytes; `hexdigest` is an arbitrary
function of the absorbed byte sequence, passed as a parameter `md5hex`).
Stateful control flow (the retry loop, the semaphore-bounded scheduler)
is made explicit: the retry loop becomes a function of the sequence of
attempt outcomes supplied by the environment, and the semaphore becomes
a labelled transition system over scheduler states.
-/

namespace GofileUploader

/-- A remote JSON response, modelled as a Python dict from field names to
string values (the code only ever inspects string-valued fields such as
`status`, plus presence of the `data` field). The empty list models the
empty dict `{}`, which is falsy in Python. -/
abbrev RemoteResponse : Type := List (String × String)

/-- Python `d.get(k)` / `d[k]` lookup on a dict: the first entry with the
given key, if any. -/
def dictLookup (d : RemoteResponse) (k : String) : Option String :=
  (d.find? (fun kv => kv.1 == k)).map (fun kv => kv.2)

/-- Python `d.get(k, fallback)`. -/
def dictGet (d : RemoteResponse) (k fallback : String) : String :=
  (dictLookup d k).getD fallback

/-- Python's substring test `needle in haystack`: some suffix of the
haystack starts with the needle. -/
def strContains (haystack needle : String) : Bool :=
  haystack.data.tails.any (fun t => needle.data.isPrefixOf t)

/-- Outcome of `GofileIOAPI.raise_error_if_error_in_remote_response`
(api.py lines 85-93): the check can fall through (no error), call
`exit(1)` (rate-limited and `exit_if_rate_limited` set), or raise an
exception. -/
inductive CheckResult where
  | passed
  | exited
  | raised
deriving DecidableEq

/-- Embedding of `GofileIOAPI.raise_error_if_error_in_remote_response`
(api.py lines 85-93):

    if response:
        if exit_if_rate_limited and ("error-rateLimit" in response.get("status", "")):
            exit(1)
        if "error" in response.get("status", "") or response.get("status", "") != "ok":
            raise Exception(msg)

Note the whole body is guarded by the truthiness of `response`, so the
empty dict is never checked at all. -/
def raise_error_if_error_in_remote_response
    (response : RemoteResponse) (exit_if_rate_limited : Bool) : CheckResult :=
  if response.isEmpty then
    CheckResult.passed
  else if exit_if_rate_limited && strContains (dictGet response "status" "") "error-rateLimit" then
    CheckResult.exited
  else if strContains (dictGet response "status" "") "error"
      || dictGet response "status" "" != "ok" then
    CheckResult.raised
  else
    CheckResult.passed

/-- Environment-supplied outcome of one iteration of the retry loop in
`GofileIOAPI.upload_file` (api.py lines 219-268): either some call
before or during the transfer raises (server discovery failure, network
error, timeout, unreadable file), or the upload POST completes and
yields a response dictionary. -/
inductive AttemptOutcome where
  | raises
  | response (r : RemoteResponse)
deriving DecidableEq

/-- How one iteration of the `try` block ends: `returned s` is the
`return file_metadata` inside the `try` with `uploadSuccess = s`;
`caught` is an exception reaching the `except` clause (which increments
the retry counter); `exited` is a process exit from the response check. -/
inductive TryResult where
  | returned (uploadSuccess : Option String)
  | caught
  | exited
deriving DecidableEq

/-- One iteration of the `try` block of `GofileIOAPI.upload_file`
(api.py lines 220-263). On a completed POST the response is checked
with `exit_if_rate_limited=False` (api.py lines 254-256); if the check
passes, `file_metadata.update(response["data"])` raises `KeyError` when
the `data` field is absent, otherwise `uploadSuccess` is set to
`response.get("status")` and the metadata is returned. -/
def uploadAttempt (outcome : AttemptOutcome) : TryResult :=
  match outcome with
  | AttemptOutcome.raises => TryResult.caught
  | AttemptOutcome.response r =>
    match raise_error_if_error_in_remote_response r false with
    | CheckResult.exited => TryResult.exited
    | CheckResult.raised => TryResult.caught
    | CheckResult.passed =>
      match dictLookup r "data" with
      | none => TryResult.caught
      | some _ => TryResult.returned (dictLookup r "status")

/-- Result of a call to `GofileIOAPI.upload_file`. `raisedNotExists` is
the pre-loop existence check raising; `returnedMeta s` is
`return file_metadata` with the `uploadSuccess` field equal to `s`;
`returnedNone` is the implicit `return None` when the function body
falls through without entering the loop; `exitProcess` is `exit(1)`. -/
inductive UploadFileResult where
  | raisedNotExists
  | returnedMeta (uploadSuccess : Option String)
  | returnedNone
  | exitProcess
deriving DecidableEq

/-- Aggregate outcome of `upload_file`: the returned value, the number
of loop iterations (attempts) actually executed, and the final value of
the per-task `retries` counter. -/
structure UploadOutcome where
  result : UploadFileResult
  attemptsMade : Nat
  finalRetries : Nat
deriving DecidableEq

/-- Embedding of `GofileIOAPI.upload_file` (api.py lines 202-268).

    retries = 0
    while retries < self.options["retries"]:
        try:
            ... # one transfer attempt; returns file_metadata on success
        except Exception as e:
            retries += 1
            ...
        return file_metadata    # api.py line 268: inside the while body

Every path through the loop body ends in a `return`: the `try` block
returns on success, and the `return file_metadata` at the end of the
body (indented inside the `while`) executes after the `except` clause
swallows a failure. The loop therefore executes at most one iteration
and the translation needs no recursion: if the limit is positive, the
first attempt's outcome decides the call; if the limit is zero the loop
body never runs and the function returns `None`. `file_metadata` starts
with `uploadSuccess = None` and is only updated on the success path. -/
def upload_file (fileExists : Bool) (retriesLimit : Nat)
    (outcomes : Nat → AttemptOutcome) : UploadOutcome :=
  if !fileExists then
    { result := UploadFileResult.raisedNotExists, attemptsMade := 0, finalRetries := 0 }
  else if 0 < retriesLimit then
    match uploadAttempt (outcomes 0) with
    | TryResult.returned s =>
      { result := UploadFileResult.returnedMeta s, attemptsMade := 1, finalRetries := 0 }
    | TryResult.caught =>
      { result := UploadFileResult.returnedMeta none, attemptsMade := 1, finalRetries := 1 }
    | TryResult.exited =>
      { result := UploadFileResult.exitProcess, attemptsMade := 1, finalRetries := 0 }
  else
    { result := UploadFileResult.returnedNone, attemptsMade := 0, finalRetries := 0 }

/-- Embedding of `GofileIOAPI.upload_files` (api.py lines 270-273): one
`upload_file` task per path, gathered in order (`asyncio.gather` returns
results in task order). Each path is given its own stream of attempt
outcomes by the environment. -/
def upload_files {α : Type} (fileExists : α → Bool) (retriesLimit : Nat)
    (outcomesFor : α → Nat → AttemptOutcome) (paths : List α) : List UploadFileResult :=
  paths.map (fun p => (upload_file (fileExists p) retriesLimit (outcomesFor p)).result)

/-! ## Checksumming (`GofileIOUploader.checksum`, gofile_uploader.py lines 451-460) -/

/-- `hashlib.md5().block_size` in CPython. -/
def md5_block_size : Nat := 64

/-- Successive `f.read(n)` results for a file whose remaining content is
the given byte list: each read returns the next at-most-`n` bytes, and
the `while chunk := f.read(n)` loop stops at the first falsy (empty)
chunk. With `n = 0` every read returns the empty bytes object, so the
loop body never runs. -/
def readChunks (n : Nat) (content : List Nat) : List (List Nat) :=
  if n = 0 ∨ content = [] then
    []
  else
    content.take n :: readChunks n (content.drop n)
termination_by content.length
decreasing_by
  rename_i h
  push_neg at h
  have hn : 0 < n := Nat.pos_of_ne_zero h.1
  have hc : 0 < content.length := List.length_pos.mpr h.2
  simpa [List.length_drop] using Nat.sub_lt hc hn

/-- Embedding of the static method `GofileIOUploader.checksum`
(gofile_uploader.py lines 451-460):

    h = hash_factory()
    with open(filename, "rb") as f:
        while chunk := f.read(chunk_num_blocks * h.block_size):
            h.update(chunk)
    return h.hexdigest()

The digest object is modelled by the byte sequence it has absorbed:
`update` appends a chunk, and `hexdigest` applies the parameter
`md5hex` (any function of the absorbed bytes, standing for the MD5 hex
digest) to the final absorbed sequence. -/
def checksum (md5hex : List Nat → String) (content : List Nat)
    (chunk_num_blocks : Nat) : String :=
  md5hex ((readChunks (chunk_num_blocks * md5_block_size) content).foldl
    (fun absorbed chunk => absorbed ++ chunk) [])

/-! ## Reconciliation: hash cache and skip logic
(`GofileIOUploader.get_md5_sums_for_files` and the skip block of
`GofileIOUploader.upload_files`, gofile_uploader.py lines 425-449 and
473-491) -/

/-- A local path as seen by `upload_files`: its string form `str(path)`,
whether `path.is_file()` holds, and its byte content. -/
structure LocalFile where
  path : String
  isFile : Bool
  content : List Nat
deriving DecidableEq

/-- A value of the remote folder listing's `children` dict
(`GetContentChildFile` / `GetContentChildFolder` in types.py): the code
reads `type`, `name`, `md5` and `id`. Folder children carry no `md5` in
the real response; the skip logic only reads `md5` of `type == "file"`
children, so a total field is adequate. -/
structure RemoteChild where
  type : String
  name : String
  md5 : String
  id : String
deriving DecidableEq

/-- The hash a path gets in `get_md5_sums_for_files`: the cached value
from `config.history.md5_sums` when present, otherwise a freshly
computed `checksum` with the default `chunk_num_blocks = 128`. -/
def hashForFile (md5hex : List Nat → String) (cache : List (String × String))
    (p : LocalFile) : String :=
  match dictLookup cache p.path with
  | some v => v
  | none => checksum md5hex p.content 128

/-- Embedding of `GofileIOUploader.get_md5_sums_for_files`
(gofile_uploader.py lines 425-449): a dict built by iterating over the
paths in order and, for each `path.is_file()` path, storing the cached
or freshly computed md5 under `str(path)`. (Python's dict would
overwrite on a repeated path string; the theorems below assume the path
strings are distinct, as produced by `Path.iterdir`.) -/
def get_md5_sums_for_files (md5hex : List Nat → String)
    (cache : List (String × String)) : List LocalFile → List (String × String)
  | [] => []
  | p :: rest =>
    (if p.isFile then [(p.path, hashForFile md5hex cache p)] else [])
      ++ get_md5_sums_for_files md5hex cache rest

/-- The md5 values of the file-type children of the target folder
listing (gofile_uploader.py lines 477-479):

    md5_sums_of_items_in_folder = [
        x["md5"] for x in folder_id_contents["data"].get("children", {}).values()
        if x.get("type") == "file"
    ]
-/
def md5_sums_of_items_in_folder (children : List RemoteChild) : List String :=
  (children.filter (fun x => x.type == "file")).map (fun x => x.md5)

/-- Embedding of the skip block of `GofileIOUploader.upload_files`
(gofile_uploader.py lines 477-491): compute the local sums, skip every
path whose sum occurs among the remote file children's md5 values, and
keep the rest for the upload scheduler:

    paths_and_md5_sums = self.get_md5_sums_for_files(paths)
    paths_to_skip = [k for k, v in paths_and_md5_sums.items()
                     if v in md5_sums_of_items_in_folder]
    paths = [x for x in paths if str(x) not in paths_to_skip]
-/
def upload_files_filter (md5hex : List Nat → String)
    (cache : List (String × String)) (paths : List LocalFile)
    (children : List RemoteChild) : List LocalFile :=
  let remoteSums := md5_sums_of_items_in_folder children
  let paths_and_md5_sums := get_md5_sums_for_files md5hex cache paths
  let paths_to_skip :=
    (paths_and_md5_sums.filter (fun kv => remoteSums.contains kv.2)).map (fun kv => kv.1)
  paths.filter (fun x => !(paths_to_skip.contains x.path))

/-! ## Folder resolution (`GofileIOUploader.get_folder_id`,
gofile_uploader.py lines 365-423) -/

/-- The character class `[0-9a-f]` of the folder-id regex (lowercase hex
only; `re.match` is case-sensitive without `re.IGNORECASE`). -/
def isLowerHexDigit (c : Char) : Bool :=
  c.isDigit || ['a', 'b', 'c', 'd', 'e', 'f'].contains c

/-- Consume exactly `n` `[0-9a-f]` characters, returning the rest. -/
def consumeHex : Nat → List Char → Option (List Char)
  | 0, cs => some cs
  | _ + 1, [] => none
  | n + 1, c :: cs => if isLowerHexDigit c then consumeHex n cs else none

/-- Consume one literal character, returning the rest. -/
def consumeLit (c : Char) : List Char → Option (List Char)
  | [] => none
  | c' :: cs => if c' == c then some cs else none

/-- Consume the pattern
`[0-9a-f]{8}-[0-9a-f]{4}-4[0-9a-f]{3}-[89ab][0-9a-f]{3}-[0-9a-f]{12}`
from the front of a character list, returning the unconsumed rest on a
match. -/
def uuid4Consume (cs : List Char) : Option (List Char) := do
  let cs ← consumeHex 8 cs
  let cs ← consumeLit '-' cs
  let cs ← consumeHex 4 cs
  let cs ← consumeLit '-' cs
  let cs ← consumeLit '4' cs
  let cs ← consumeHex 3 cs
  let cs ← consumeLit '-' cs
  let cs ← (match cs with
    | [] => none
    | c :: rest => if ['8', '9', 'a', 'b'].contains c then some rest else none)
  let cs ← consumeHex 3 cs
  let cs ← consumeLit '-' cs
  consumeHex 12 cs

/-- Embedding of
`re.match(r"[0-9a-f]{8}-[0-9a-f]{4}-4[0-9a-f]{3}-[89ab][0-9a-f]{3}-[0-9a-f]{12}", folder)`
(gofile_uploader.py line 384). `re.match` anchors at the start of the
string only: trailing characters after the matched portion are
allowed. -/
def re_match_uuid4 (s : String) : Bool :=
  (uuid4Consume s.data).isSome

/-- The canonical UUID-v4 shape, following the specification's words
("matches the canonical opaque-identifier shape (a UUID-v4 pattern)"):
the same pattern, but matching the whole string with nothing left over.
Defined from the spec, to be compared with the source's anchored-prefix
`re.match` above. -/
def uuidV4Full (s : String) : Bool :=
  uuid4Consume s.data == some []

/-- Python truthiness of `self.api.token` (an `Optional[str]`): `None`
and the empty string are falsy. -/
def tokenTruthy (token : Option String) : Bool :=
  match token with
  | none => false
  | some t => !(t == "")

/-- The `data` of the root folder listing returned by
`get_content(self.api.root_folder_id, ...)`: its `name`, its `id`, and
its `children` dict's values (an absent `children` field is the empty
list, matching `.get("children", {})`). -/
structure RootContents where
  name : String
  id : String
  children : List RemoteChild
deriving DecidableEq

/-- What a call to `get_folder_id` returned and which remote calls it
made: the returned folder id (`none` for Python `None`), whether the
root folder listing was fetched, and the name passed to
`create_folder(root, name)` if a creation call was issued. -/
structure FolderIdOutcome where
  result : Option String
  listedRootContents : Bool
  createdFolder : Option String
deriving DecidableEq

/-- Embedding of `GofileIOUploader.get_folder_id` (gofile_uploader.py
lines 365-423). The remote responses are supplied as parameters:
`rootContents` is the `data` of the root folder listing, and
`newFolderId` is the `folderId` the server would assign to a newly
created folder. Branches in source order: no folder given;
`re.match`-UUID fast path; token present (root-name match, then a
one-level search of the root's children for a `type == "folder"` child
with the given name via `next(..., None)`, then creation); no token. -/
def get_folder_id (token : Option String) (root_folder_id : Option String)
    (rootContents : RootContents) (newFolderId : String)
    (folder : Option String) : FolderIdOutcome :=
  match folder with
  | none =>
    if tokenTruthy token then
      { result := root_folder_id, listedRootContents := false, createdFolder := none }
    else
      { result := none, listedRootContents := false, createdFolder := none }
  | some f =>
    if re_match_uuid4 f then
      { result := some f, listedRootContents := false, createdFolder := none }
    else if tokenTruthy token then
      if rootContents.name == f then
        { result := some rootContents.id, listedRootContents := true, createdFolder := none }
      else
        match rootContents.children.find?
            (fun x => x.type == "folder" && x.name == f) with
        | some folder_with_same_name =>
          { result := some folder_with_same_name.id, listedRootContents := true,
            createdFolder := none }
        | none =>
          { result := some newFolderId, listedRootContents := true, createdFolder := some f }
    else
      { result := none, listedRootContents := false, createdFolder := none }

/-! ## Progress reader (`ProgressFileReader.read`, gofile_uploader.py
lines 34-49) -/

/-- The state of a `ProgressFileReader`: the underlying file's bytes
(`self.length = stat().st_size = content.length`) and the current
stream position (`self.tell()`). -/
structure ProgressFileReader where
  content : List Nat
  pos : Nat
deriving DecidableEq

/-- Result of `ProgressFileReader.read`: the returned bytes and the
advanced reader, or the `ZeroDivisionError` raised by
`round(self.tell() / self.length)` before any bytes are read. -/
inductive ReadResult where
  | ok (bytes : List Nat) (reader : ProgressFileReader)
  | zeroDivisionError
deriving DecidableEq

/-- `BufferedReader.read`: with `size = None` read everything from the
current position to EOF; with `size = some n` read at most `n` bytes;
the position advances past the returned bytes. -/
def bufferedRead (r : ProgressFileReader) (size : Option Nat) : ReadResult :=
  let bytes := match size with
    | none => r.content.drop r.pos
    | some n => (r.content.drop r.pos).take n
  ReadResult.ok bytes { r with pos := r.pos + bytes.length }

/-- Embedding of `ProgressFileReader.read` (gofile_uploader.py lines
43-49):

    calc_sz = size
    if not calc_sz:
        calc_sz = self.length - self.tell()
    if self.__read_callback:
        self.__read_callback(self.tell(), round(self.tell() / self.length), self.length)
    return super(ProgressFileReader, self).read(size)

`calc_sz` is computed but never used. When a callback is installed, the
progress argument `round(self.tell() / self.length)` divides by the
file length, raising `ZeroDivisionError` for a zero-length file before
the underlying read happens; the returned bytes are always those of the
plain `BufferedReader.read`. -/
def ProgressFileReader.read (r : ProgressFileReader) (hasCallback : Bool)
    (size : Option Nat) : ReadResult :=
  if hasCallback then
    if r.content.length = 0 then
      ReadResult.zeroDivisionError
    else
      bufferedRead r size
  else
    bufferedRead r size

/-! ## Transfer admission gate (`asyncio.Semaphore`, api.py lines 48 and
217-219)

`GofileIOAPI.__init__` creates `self.sem = asyncio.Semaphore(connections)`
and `upload_file` wraps the whole attempt loop in `async with self.sem:`.
The scheduler is modelled as a labelled transition system: each of the
`numFiles` launched tasks is waiting, transferring (inside the
`async with` body), or done; acquiring decrements the semaphore value
when it is positive, and leaving the body — whether the upload
succeeded or finally failed — sets the task to done and increments the
value back (`async with` releases on both normal and exceptional
exit). -/

/-- Phase of one upload task relative to the semaphore-guarded critical
section. `done success` records that the task left the section with the
given outcome; the release transition is available for both outcomes. -/
inductive TaskPhase where
  | waiting
  | transferring
  | done (success : Bool)
deriving DecidableEq

/-- Scheduler state: the semaphore's internal counter and the phase of
every launched task. -/
structure SchedState where
  semValue : Nat
  tasks : List TaskPhase
deriving DecidableEq

/-- Initial scheduler state: `asyncio.Semaphore(connections)` and all
tasks launched together by `upload_files`, none yet admitted. -/
def initState (connections numFiles : Nat) : SchedState :=
  { semValue := connections, tasks := List.replicate numFiles TaskPhase.waiting }

/-- One scheduler transition: a waiting task acquires the semaphore
(only possible while the counter is positive — otherwise
`await sem.acquire()` blocks), or a transferring task leaves the
critical section with some outcome, releasing the semaphore. -/
inductive SchedStep : SchedState → SchedState → Prop where
  | acquire (s : SchedState) (i : Nat)
      (htask : s.tasks[i]? = some TaskPhase.waiting) (hsem : 0 < s.semValue) :
      SchedStep s { semValue := s.semValue - 1, tasks := s.tasks.set i TaskPhase.transferring }
  | release (s : SchedState) (i : Nat) (success : Bool)
      (htask : s.tasks[i]? = some TaskPhase.transferring) :
      SchedStep s { semValue := s.semValue + 1, tasks := s.tasks.set i (TaskPhase.done success) }

/-- States reachable by the scheduler of a run with the given
concurrency limit and number of files. -/
inductive SchedReachable (connections numFiles : Nat) : SchedState → Prop where
  | init : SchedReachable connections numFiles (initState connections numFiles)
  | step {s s' : SchedState} : SchedReachable connections numFiles s →
      SchedStep s s' → SchedReachable connections numFiles s'

/-- Number of tasks currently inside the transfer critical section. -/
def countTransferring (tasks : List TaskPhase) : Nat :=
  tasks.countP (fun p => p == TaskPhase.transferring)

/-! ## Theorems -/

lemma dictGet_nil (k fallback : String) : dictGet ([] : RemoteResponse) k fallback = fallback := rfl

lemma strContains_ok_error : strContains "ok" "error" = false := by decide

lemma strContains_ok_rateLimit : strContains "ok" "error-rateLimit" = false := by decide

lemma strContains_empty_rateLimit : strContains "" "error-rateLimit" = false := by decide

/-- On a non-empty response, the check with `exit_if_rate_limited=False`
raises exactly when the `status` field is absent or differs from `"ok"`. -/
lemma raised_iff_aux (r : RemoteResponse) (h : r ≠ []) :
    raise_error_if_error_in_remote_response r false = CheckResult.raised ↔
      dictLookup r "status" ≠ some "ok" := by
  have hne : r.isEmpty = false := by
    cases r with
    | nil => exact absurd rfl h
    | cons kv rest => rfl
  unfold raise_error_if_error_in_remote_response
  rw [hne]
  simp only [Bool.false_and, if_false, Bool.false_eq_true]
  by_cases hs : dictLookup r "status" = some "ok"
  · have hget : dictGet r "status" "" = "ok" := by simp [dictGet, hs]
    rw [hget]
    simp [strContains_ok_error, hs]
  · have hget : dictGet r "status" "" ≠ "ok" := by
      unfold dictGet
      cases hl : dictLookup r "status" with
      | none => simp
      | some v =>
        simp only [Option.getD_some]
        intro hv
        exact hs (hv ▸ hl)
    simp [hget, hs]


/-- C6 counterexample: the empty response has no `status` field, yet the
check does not raise — the `if response:` truthiness guard skips the
whole body for an empty dict. -/
theorem raise_error_empty_response_passes :
    dictLookup ([] : RemoteResponse) "status" = none ∧
    raise_error_if_error_in_remote_response ([] : RemoteResponse) false =
      CheckResult.passed := by
  constructor
  · rfl
  · rfl

/-- C6 amended: for every NON-empty response,
`raise_error_if_error_in_remote_response` (with the default
`exit_if_rate_limited=False`) raises iff the `status` field is absent or
not `"ok"`; the empty response is never checked and passes. -/
theorem raise_error_raises_iff_status_not_ok (r : RemoteResponse) (h : r ≠ []) :
    raise_error_if_error_in_remote_response r false = CheckResult.raised ↔
      dictLookup r "status" ≠ some "ok" :=
  raised_iff_aux r h

theorem raise_error_raises_iff_status_not_ok_witness :
    ([("status", "error-auth")] : RemoteResponse) ≠ [] ∧
    (raise_error_if_error_in_remote_response [("status", "error-auth")] false =
        CheckResult.raised ↔
      dictLookup ([("status", "error-auth")] : RemoteResponse) "status" ≠ some "ok") :=
  ⟨by decide, raise_error_raises_iff_status_not_ok [("status", "error-auth")] (by decide)⟩

/-- C3 counterexample: a rate-limited upload response does not abort the
run. The upload response check is invoked with
`exit_if_rate_limited=False` (api.py lines 254-256), so the raised
exception is caught by the `except` clause, the retry counter is
incremented, and `upload_file` returns the failure metadata instead of
exiting. -/
theorem rate_limited_upload_does_not_abort :
    upload_file true 3 (fun _ => AttemptOutcome.response [("status", "error-rateLimit")]) =
      { result := UploadFileResult.returnedMeta none, attemptsMade := 1, finalRetries := 1 } ∧
    (upload_file true 3
        (fun _ => AttemptOutcome.response [("status", "error-rateLimit")])).result ≠
      UploadFileResult.exitProcess := by
  constructor
  · rfl
  · decide

/-- C3 amended: a response whose `status` carries `"error-rateLimit"`
aborts the run (`exit(1)`) only in the operations that pass
`exit_if_rate_limited=True` (server discovery, account, content and
folder calls); the upload response check passes
`exit_if_rate_limited=False`, so the same response raises an ordinary
exception there, which the attempt loop catches and counts as a
transfer failure. -/
theorem rate_limited_fatal_only_with_exit_flag (r : RemoteResponse)
    (h : strContains (dictGet r "status" "") "error-rateLimit" = true) :
    raise_error_if_error_in_remote_response r true = CheckResult.exited ∧
    uploadAttempt (AttemptOutcome.response r) = TryResult.caught := by
  have hne : r.isEmpty = false := by
    cases r with
    | nil => rw [dictGet_nil] at h; exact absurd h (by decide)
    | cons kv rest => rfl
  have hnotok : dictGet r "status" "" ≠ "ok" := by
    intro hok
    rw [hok] at h
    exact absurd h (by decide)
  constructor
  · unfold raise_error_if_error_in_remote_response
    rw [hne, h]
    simp
  · have hraised : raise_error_if_error_in_remote_response r false =
        CheckResult.raised := by
      unfold raise_error_if_error_in_remote_response
      rw [hne]
      simp [hnotok]
    simp only [uploadAttempt, hraised]

theorem rate_limited_fatal_only_with_exit_flag_witness :
    strContains (dictGet [("status", "error-rateLimit")] "status" "") "error-rateLimit" = true ∧
    (raise_error_if_error_in_remote_response [("status", "error-rateLimit")] true =
        CheckResult.exited ∧
      uploadAttempt (AttemptOutcome.response [("status", "error-rateLimit")]) =
        TryResult.caught) :=
  ⟨by decide, rate_limited_fatal_only_with_exit_flag [("status", "error-rateLimit")] (by decide)⟩

/-- C1: with the configured retry limit 3 and every attempt failing
(here: each attempt raising during routing or transfer, and likewise a
non-"ok" response), `upload_file` makes exactly ONE attempt, the retry
counter ends at 1, and the failure metadata is returned: the
`return file_metadata` at api.py line 268 is indented inside the `while`
body, so the loop never reaches a second iteration. -/
theorem upload_file_single_attempt_on_failure :
    upload_file true 3 (fun _ => AttemptOutcome.raises) =
      { result := UploadFileResult.returnedMeta none, attemptsMade := 1, finalRetries := 1 } ∧
    upload_file true 3 (fun _ => AttemptOutcome.response [("status", "error-auth")]) =
      { result := UploadFileResult.returnedMeta none, attemptsMade := 1, finalRetries := 1 } := by
  constructor <;> rfl

/-- C10: with a retry limit of zero the `while` loop body never runs,
`upload_file` falls off the end of the function and returns Python
`None`, and the list `upload_files` gathers contains that `None` entry
for every file — no explicit success or failure outcome. -/
theorem upload_zero_retries_returns_none {α : Type}
    (outcomes : Nat → AttemptOutcome) (fileExists : α → Bool)
    (outcomesFor : α → Nat → AttemptOutcome) (paths : List α)
    (hexists : ∀ p ∈ paths, fileExists p = true) :
    upload_file true 0 outcomes =
      { result := UploadFileResult.returnedNone, attemptsMade := 0, finalRetries := 0 } ∧
    upload_files fileExists 0 outcomesFor paths =
      paths.map (fun _ => UploadFileResult.returnedNone) := by
  constructor
  · rfl
  · unfold upload_files
    apply List.map_congr_left
    intro p hp
    rw [hexists p hp]
    rfl

theorem upload_zero_retries_returns_none_witness :
    (∀ p ∈ ([0, 1] : List Nat), (fun _ : Nat => true) p = true) ∧
    upload_files (fun _ : Nat => true) 0 (fun _ _ => AttemptOutcome.raises) [0, 1] =
      [UploadFileResult.returnedNone, UploadFileResult.returnedNone] := by
  refine ⟨by decide, ?_⟩
  have h := upload_zero_retries_returns_none (fun _ => AttemptOutcome.raises)
    (fun _ : Nat => true) (fun _ _ => AttemptOutcome.raises) [0, 1] (by decide)
  simpa using h.2



/-- C9: with a progress callback installed, `ProgressFileReader.read`
computes `round(self.tell() / self.length)`: on a zero-length file the
very first read raises `ZeroDivisionError` before any bytes are
transferred, while on a non-zero-length file the division is
well-defined and the call returns exactly what the plain
`BufferedReader.read` would return. -/
theorem progress_reader_zero_division (r : ProgressFileReader) (size : Option Nat) :
    (r.content.length = 0 →
      ProgressFileReader.read r true size = ReadResult.zeroDivisionError) ∧
    (r.content.length ≠ 0 →
      ProgressFileReader.read r true size = bufferedRead r size ∧
      ProgressFileReader.read r true size = ProgressFileReader.read r false size) := by
  unfold ProgressFileReader.read
  constructor
  · intro h
    simp [h]
  · intro h
    simp [h]

theorem progress_reader_zero_division_witness :
    ((⟨[], 0⟩ : ProgressFileReader).content.length = 0 ∧
      ProgressFileReader.read ⟨[], 0⟩ true none = ReadResult.zeroDivisionError) ∧
    ((⟨[7, 8], 0⟩ : ProgressFileReader).content.length ≠ 0 ∧
      ProgressFileReader.read ⟨[7, 8], 0⟩ true none = bufferedRead ⟨[7, 8], 0⟩ none) :=
  ⟨⟨rfl, (progress_reader_zero_division ⟨[], 0⟩ none).1 rfl⟩,
   ⟨by decide, ((progress_reader_zero_division ⟨[7, 8], 0⟩ none).2 (by decide)).1⟩⟩

/-- The chunks produced by repeated bounded reads concatenate back to
the whole content whenever the read size is positive. -/
theorem readChunks_join (n : Nat) (hn : n ≠ 0) (content : List Nat) :
    (readChunks n content).flatten = content := by
  by_cases h : content = []
  · rw [h, readChunks]
    simp
  · rw [readChunks, if_neg (by simp [hn, h])]
    rw [List.flatten_cons, readChunks_join n hn (content.drop n), List.take_append_drop]
termination_by content.length
decreasing_by
  have hc : 0 < content.length := List.length_pos.mpr h
  simpa [List.length_drop] using Nat.sub_lt hc (Nat.pos_of_ne_zero hn)

lemma foldl_append_eq_join (chunks : List (List Nat)) :
    ∀ acc : List Nat, chunks.foldl (fun absorbed chunk => absorbed ++ chunk) acc =
      acc ++ chunks.flatten := by
  induction chunks with
  | nil => intro acc; simp
  | cons c rest ih => intro acc; simp [List.foldl_cons, ih, List.flatten_cons]

/-- C7: for every file content and every positive `chunk_num_blocks`,
the chunked digest equals the digest of the whole content absorbed in
one pass — the read buffer size does not affect the absorbed byte
sequence, hence not the hash. -/
theorem checksum_chunk_size_irrelevant (md5hex : List Nat → String)
    (content : List Nat) (chunk_num_blocks : Nat) (hk : 1 ≤ chunk_num_blocks) :
    checksum md5hex content chunk_num_blocks = md5hex content := by
  unfold checksum
  have hn : chunk_num_blocks * md5_block_size ≠ 0 := by
    have : 0 < chunk_num_blocks * md5_block_size :=
      Nat.mul_pos hk (by decide)
    omega
  rw [foldl_append_eq_join, readChunks_join _ hn, List.nil_append]

theorem checksum_chunk_size_irrelevant_witness :
    1 ≤ 1 ∧
    checksum (fun l => toString l.length) [1, 2, 3] 1 =
      (fun l : List Nat => toString l.length) [1, 2, 3] :=
  ⟨by decide, checksum_chunk_size_irrelevant (fun l => toString l.length) [1, 2, 3] 1 (by decide)⟩

lemma countP_set_add {α : Type} (p : α → Bool) :
    ∀ (l : List α) (i : Nat) (a b : α), l[i]? = some a →
      (l.set i b).countP p + (if p a then 1 else 0) =
        l.countP p + (if p b then 1 else 0) := by
  intro l
  induction l with
  | nil => intro i a b h; simp at h
  | cons x xs ih =>
    intro i a b h
    cases i with
    | zero =>
      simp only [List.getElem?_cons_zero, Option.some.injEq] at h
      subst h
      simp [List.countP_cons]
      omega
    | succ n =>
      simp only [List.getElem?_cons_succ] at h
      have hrec := ih n a b h
      simp [List.countP_cons]
      omega

lemma countTransferring_replicate_waiting (n : Nat) :
    countTransferring (List.replicate n TaskPhase.waiting) = 0 := by
  induction n with
  | zero => rfl
  | succ k ih =>
    simp only [List.replicate, countTransferring, List.countP_cons] at *
    simp [ih]

/-- Semaphore invariant: in every reachable scheduler state, the
semaphore's counter plus the number of tasks inside the critical
section equals the configured connection limit. -/
lemma sched_invariant {c n : Nat} {s : SchedState} (h : SchedReachable c n s) :
    s.semValue + countTransferring s.tasks = c := by
  induction h with
  | init => simp [initState, countTransferring_replicate_waiting]
  | @step t t' hr hstep ih =>
    cases hstep with
    | acquire i htask hsem =>
      have hcount := countP_set_add (fun p => p == TaskPhase.transferring)
        t.tasks i TaskPhase.waiting TaskPhase.transferring htask
      simp only [countTransferring] at *
      simp at hcount
      omega
    | release i success htask =>
      have hcount := countP_set_add (fun p => p == TaskPhase.transferring)
        t.tasks i TaskPhase.transferring (TaskPhase.done success) htask
      simp only [countTransferring] at *
      simp at hcount
      omega

/-- C2: in any run with concurrency limit `c`, no reachable scheduler
state has more than `c` tasks simultaneously inside the
semaphore-guarded transfer section, however many files are queued; the
`release` transition (available on success and on failure alike)
restores the slot. -/
theorem transfer_concurrency_bound {c n : Nat} {s : SchedState}
    (h : SchedReachable c n s) : countTransferring s.tasks ≤ c := by
  have := sched_invariant h
  omega

theorem transfer_concurrency_bound_witness :
    countTransferring
      (SchedState.mk ((initState 2 3).semValue - 1)
        ((initState 2 3).tasks.set 0 TaskPhase.transferring)).tasks ≤ 2 :=
  transfer_concurrency_bound
    (SchedReachable.step SchedReachable.init
      (SchedStep.acquire (initState 2 3) 0 (by decide) (by decide)))



/-- C8 counterexample: `"00000000-0000-4000-8000-000000000000ff"` does
not have the canonical UUID-v4 shape (two trailing characters), yet
`get_folder_id` takes the fast path on it — `re.match` anchors only at
the start of the string — returning it unchanged with no listing and no
creation call. -/
theorem uuid_prefix_takes_fast_path :
    uuidV4Full "00000000-0000-4000-8000-000000000000ff" = false ∧
    get_folder_id (some "tok") (some "rootid")
        { name := "root", id := "rootid", children := [] } "newid"
        (some "00000000-0000-4000-8000-000000000000ff") =
      { result := some "00000000-0000-4000-8000-000000000000ff",
        listedRootContents := false, createdFolder := none } := by
  constructor
  · rfl
  · rfl

/-- C8 amended: the fast path is governed by the anchored-prefix
`re.match`: `get_folder_id` returns the argument unchanged with no
listing and no creation exactly when some prefix of it matches the
UUID-v4 pattern; every canonical (full) UUID-v4 does so, but so does
any string extending one by trailing characters. -/
theorem get_folder_id_fast_path_iff (token root_folder_id : Option String)
    (rc : RootContents) (newFolderId : String) (f : String) :
    (get_folder_id token root_folder_id rc newFolderId (some f) =
        { result := some f, listedRootContents := false, createdFolder := none } ↔
      re_match_uuid4 f = true) ∧
    (uuidV4Full f = true → re_match_uuid4 f = true) := by
  constructor
  · constructor
    · intro h
      by_cases hu : re_match_uuid4 f
      · exact hu
      · exfalso
        simp only [get_folder_id, hu, Bool.false_eq_true, if_false] at h
        by_cases ht : tokenTruthy token
        · rw [if_pos ht] at h
          by_cases hname : rc.name == f
          · rw [if_pos hname] at h
            simp at h
          · rw [if_neg hname] at h
            cases hf : rc.children.find? (fun x => x.type == "folder" && x.name == f) with
            | some c =>
              simp only [hf] at h
              simp at h
            | none =>
              simp only [hf] at h
              simp at h
        · rw [if_neg ht] at h
          simp at h
    · intro hu
      simp [get_folder_id, hu]
  · intro h
    unfold uuidV4Full at h
    unfold re_match_uuid4
    cases hc : uuid4Consume f.data with
    | none =>
      rw [hc] at h
      exact absurd h (by decide)
    | some rest => rfl


/-- C5 counterexample: `"11111111-1111-4111-8111-111111111111x"` is not
a UUID-v4 identifier, a token is present, the root folder's name
differs from it and no child folder carries it — the claim then demands
that exactly one folder be created and its new id returned — yet
`get_folder_id` issues no creation call and returns the string itself,
because the anchored-prefix `re.match` already accepts it. -/
theorem non_uuid_name_resolved_without_creation :
    uuidV4Full "11111111-1111-4111-8111-111111111111x" = false ∧
    tokenTruthy (some "token") = true ∧
    ("root" : String) ≠ "11111111-1111-4111-8111-111111111111x" ∧
    get_folder_id (some "token") (some "rootid")
        { name := "root", id := "rootid", children := [] } "newid"
        (some "11111111-1111-4111-8111-111111111111x") =
      { result := some "11111111-1111-4111-8111-111111111111x",
        listedRootContents := false, createdFolder := none } := by
  refine ⟨rfl, rfl, ?_, rfl⟩
  decide

/-- C5 amended: for every folder name REJECTED by the code's
anchored-prefix UUID `re.match` (rather than every non-UUID-v4 name),
with a truthy account token, `get_folder_id` resolves against the root
listing only one level deep: a name equal to the root folder's own name
yields the root's id with no creation; otherwise the first immediate
child of type `"folder"` with that name yields that child's id with no
creation; otherwise exactly one folder is created under the root (with
that name) and the server-assigned new id is returned. -/
theorem get_folder_id_named_resolution (token root_folder_id : Option String)
    (rc : RootContents) (newFolderId : String) (f : String)
    (htok : tokenTruthy token = true) (huuid : re_match_uuid4 f = false) :
    (rc.name = f →
      get_folder_id token root_folder_id rc newFolderId (some f) =
        { result := some rc.id, listedRootContents := true, createdFolder := none }) ∧
    (rc.name ≠ f →
      ∀ c, rc.children.find? (fun x => x.type == "folder" && x.name == f) = some c →
        get_folder_id token root_folder_id rc newFolderId (some f) =
          { result := some c.id, listedRootContents := true, createdFolder := none }) ∧
    (rc.name ≠ f →
      rc.children.find? (fun x => x.type == "folder" && x.name == f) = none →
        get_folder_id token root_folder_id rc newFolderId (some f) =
          { result := some newFolderId, listedRootContents := true,
            createdFolder := some f }) := by
  refine ⟨?_, ?_, ?_⟩
  · intro hname
    simp [get_folder_id, huuid, htok, hname]
  · intro hname c hfind
    have hbeq : (rc.name == f) = false := by
      simp [hname]
    simp [get_folder_id, huuid, htok, hbeq, hfind]
  · intro hname hfind
    have hbeq : (rc.name == f) = false := by
      simp [hname]
    simp [get_folder_id, huuid, htok, hbeq, hfind]

theorem get_folder_id_named_resolution_witness :
    tokenTruthy (some "tok") = true ∧
    re_match_uuid4 "myfolder" = false ∧
    ("root" : String) ≠ "myfolder" ∧
    get_folder_id (some "tok") (some "rootid")
        { name := "root", id := "rootid",
          children := [{ type := "folder", name := "myfolder", md5 := "", id := "cid" }] }
        "newid" (some "myfolder") =
      { result := some "cid", listedRootContents := true, createdFolder := none } := by
  refine ⟨by decide, by decide, by decide, ?_⟩
  exact (get_folder_id_named_resolution (some "tok") (some "rootid")
    { name := "root", id := "rootid",
      children := [{ type := "folder", name := "myfolder", md5 := "", id := "cid" }] }
    "newid" "myfolder" (by decide) (by decide)).2.1 (by decide)
    { type := "folder", name := "myfolder", md5 := "", id := "cid" } (by decide)



lemma list_contains_false_iff {α : Type} [BEq α] [LawfulBEq α] (l : List α) (a : α) :
    l.contains a = false ↔ a ∉ l := by
  simp

lemma get_md5_sums_eq (md5hex : List Nat → String) (cache : List (String × String))
    (paths : List LocalFile) :
    get_md5_sums_for_files md5hex cache paths =
      (paths.filter (fun p => p.isFile)).map
        (fun p => (p.path, hashForFile md5hex cache p)) := by
  induction paths with
  | nil => rfl
  | cons p rest ih =>
    by_cases hp : p.isFile <;>
      simp [get_md5_sums_for_files, List.filter_cons, hp, ih]

/-- Membership in the skip list: a path string is skipped iff it belongs
to some file-type local path whose (cached or computed) hash occurs
among the remote file children's md5 values. -/
lemma mem_paths_to_skip (md5hex : List Nat → String) (cache : List (String × String))
    (paths : List LocalFile) (children : List RemoteChild) (s : String) :
    s ∈ ((get_md5_sums_for_files md5hex cache paths).filter
          (fun kv => (md5_sums_of_items_in_folder children).contains kv.2)).map
        (fun kv => kv.1) ↔
      ∃ q ∈ paths, q.isFile = true ∧ q.path = s ∧
        hashForFile md5hex cache q ∈ md5_sums_of_items_in_folder children := by
  rw [get_md5_sums_eq]
  constructor
  · intro hmem
    simp only [List.mem_map, List.mem_filter, List.mem_map] at hmem
    obtain ⟨kv, ⟨⟨q, hqmem, hqkv⟩, hcont⟩, hfst⟩ := hmem
    refine ⟨q, hqmem.1, hqmem.2, ?_, ?_⟩
    · rw [← hfst, ← hqkv]
    · have h2 : kv.2 = hashForFile md5hex cache q := by rw [← hqkv]
      rw [h2] at hcont
      simpa using hcont
  · rintro ⟨q, hq, hfile, hpath, hmem⟩
    simp only [List.mem_map, List.mem_filter, List.mem_map]
    refine ⟨(q.path, hashForFile md5hex cache q),
      ⟨⟨q, ⟨hq, hfile⟩, rfl⟩, by simpa using hmem⟩, hpath⟩

/-- C4: with distinct path strings and a hash cache consistent with the
file contents, the list handed to the upload scheduler keeps exactly the
paths that are not file-type with hash already present remotely;
consequently a second run over unchanged files whose hashes all occur
remotely schedules zero transfers. -/
theorem second_run_uploads_only_absent_hashes (md5hex : List Nat → String)
    (cache : List (String × String)) (paths : List LocalFile)
    (children : List RemoteChild)
    (hnd : (paths.map (fun p => p.path)).Nodup)
    (hcache : ∀ p ∈ paths, p.isFile = true →
      ∀ v, dictLookup cache p.path = some v → v = checksum md5hex p.content 128) :
    (∀ p ∈ paths,
      (p ∈ upload_files_filter md5hex cache paths children ↔
        ¬(p.isFile = true ∧
          checksum md5hex p.content 128 ∈ md5_sums_of_items_in_folder children))) ∧
    ((∀ p ∈ paths, p.isFile = true ∧
        checksum md5hex p.content 128 ∈ md5_sums_of_items_in_folder children) →
      upload_files_filter md5hex cache paths children = []) := by
  have hinj : ∀ p ∈ paths, ∀ q ∈ paths, p.path = q.path → p = q :=
    fun p hp q hq h => List.inj_on_of_nodup_map hnd hp hq h
  have hhash : ∀ p ∈ paths, p.isFile = true →
      hashForFile md5hex cache p = checksum md5hex p.content 128 := by
    intro p hp hf
    unfold hashForFile
    cases hl : dictLookup cache p.path with
    | none => rfl
    | some v => exact hcache p hp hf v hl
  have hiff : ∀ p ∈ paths,
      (p ∈ upload_files_filter md5hex cache paths children ↔
        ¬(p.isFile = true ∧
          checksum md5hex p.content 128 ∈ md5_sums_of_items_in_folder children)) := by
    intro p hp
    unfold upload_files_filter
    rw [List.mem_filter]
    constructor
    · rintro ⟨-, hpred⟩ ⟨hfile, hmem⟩
      have hskip : p.path ∈ ((get_md5_sums_for_files md5hex cache paths).filter
            (fun kv => (md5_sums_of_items_in_folder children).contains kv.2)).map
          (fun kv => kv.1) :=
        (mem_paths_to_skip md5hex cache paths children p.path).mpr
          ⟨p, hp, hfile, rfl, by rw [hhash p hp hfile]; exact hmem⟩
      rw [Bool.not_eq_true', list_contains_false_iff] at hpred
      exact hpred hskip
    · intro hnot
      refine ⟨hp, ?_⟩
      rw [Bool.not_eq_true', list_contains_false_iff]
      intro hskip
      obtain ⟨q, hq, hqfile, hqpath, hqmem⟩ :=
        (mem_paths_to_skip md5hex cache paths children p.path).mp hskip
      have hqp : q = p := hinj q hq p hp hqpath
      subst hqp
      exact hnot ⟨hqfile, by rw [← hhash q hq hqfile]; exact hqmem⟩
  refine ⟨hiff, ?_⟩
  intro hall
  rw [List.eq_nil_iff_forall_not_mem]
  intro p hpf
  have hp : p ∈ paths := List.mem_of_mem_filter hpf
  exact ((hiff p hp).mp hpf) (hall p hp)

theorem second_run_uploads_only_absent_hashes_witness :
    ((([⟨"a", true, [1]⟩, ⟨"b", true, [2]⟩] : List LocalFile).map
        (fun p => p.path)).Nodup ∧
      (⟨"a", true, [1]⟩ : LocalFile) ∈
        ([⟨"a", true, [1]⟩, ⟨"b", true, [2]⟩] : List LocalFile)) ∧
    ((⟨"a", true, [1]⟩ : LocalFile) ∈
        upload_files_filter (fun l => toString l) []
          [⟨"a", true, [1]⟩, ⟨"b", true, [2]⟩]
          [{ type := "file", name := "x", md5 := toString [1], id := "rid" }] ↔
      ¬((true : Bool) = true ∧
        checksum (fun l => toString l) [1] 128 ∈
          md5_sums_of_items_in_folder
            [{ type := "file", name := "x", md5 := toString [1], id := "rid" }])) := by
  refine ⟨⟨by decide, by decide⟩, ?_⟩
  exact (second_run_uploads_only_absent_hashes (fun l => toString l) []
    [⟨"a", true, [1]⟩, ⟨"b", true, [2]⟩]
    [{ type := "file", name := "x", md5 := toString [1], id := "rid" }]
    (by decide) (by intro p hp hf v hv; cases hv)).1 ⟨"a", true, [1]⟩ (by decide)


theorem get_folder_id_fast_path_iff_witness :
    get_folder_id (some "tok") (some "rootid")
        { name := "root", id := "rootid", children := [] } "newid"
        (some "00000000-0000-4000-8000-000000000000") =
      { result := some "00000000-0000-4000-8000-000000000000",
        listedRootContents := false, createdFolder := none } :=
  (get_folder_id_fast_path_iff (some "tok") (some "rootid")
    { name := "root", id := "rootid", children := [] } "newid"
    "00000000-0000-4000-8000-000000000000").1.mpr (by decide)

end GofileUploader
